import Mathlib

/-!
# Verification of the MACetplace retrieval-augmented answer pipeline

A shallow embedding of the core data model and operations of the
MACetplace web client: the lexical scorer, query expansion and catalog
search, the chunk indexer, the context retriever, the prompt assembler
and the answer orchestrator, together with theorems settling the
specification's claims about them.

JavaScript numbers are modelled as rationals; the only place where
non-finite values matter (price sanitization) carries an explicit
non-finite case.  Fallible external calls (datastore, embedding service,
completion service) are modelled as `Except`-valued oracles supplied
through environment records.
-/

set_option maxHeartbeats 1000000
set_option maxRecDepth 4000

namespace MACetplace

/-! ## JavaScript-level basics -/

/-- A JavaScript number as far as this code observes it: either a finite
value (modelled exactly as a rational) or a non-finite value
(`NaN` / `±Infinity`), which `Number.isFinite` rejects. -/
inductive JSNum where
  | nonfinite : JSNum
  | fin : ℚ → JSNum
  deriving DecidableEq, Repr

/-- Model of `Number.isFinite(v) && v > 0`, the guard used by `normalizePrice`,
`normalizeRating` and `fmtPrice`. -/
def JSNum.finPos : JSNum → Bool
  | .fin q => decide (0 < q)
  | .nonfinite => false

/-- Rendering of a finite JS number as a string.  JavaScript's exact
decimal formatting is abstracted as the rational's `toString`; no claim
depends on the digits of the rendering. -/
def numStr (q : ℚ) : String := toString q

/-- Model of `s.toLowerCase()`, computed per character. -/
def jsLower (s : String) : String := String.mk (s.data.map Char.toLower)

/-- Model of `s.trim()`: strip leading and trailing whitespace. -/
def jsTrim (s : String) : String :=
  String.mk (((s.data.dropWhile Char.isWhitespace).reverse.dropWhile Char.isWhitespace).reverse)

def splitCharsAux (p : Char → Bool) : List Char → List Char → List String
  | [], acc => [String.mk acc.reverse]
  | c :: cs, acc =>
    if p c then String.mk acc.reverse :: splitCharsAux p cs []
    else splitCharsAux p cs (c :: acc)

/-- Model of `s.split(regex)` for a character-class regex: cut at every separator
character.  The `+` quantifier of the source regexes merges separator
runs, which differs from per-character cutting only by empty pieces, and
every consumer filters those out (through a minimum-length or
nonemptiness test) before use. -/
def jsSplit (s : String) (p : Char → Bool) : List String := splitCharsAux p s.data []

/-- Model of `s.replace(/_/g, " ")`: the pattern is a single character, so the
global replace is a character map. -/
def underscoreToSpace (s : String) : String :=
  String.mk (s.data.map (fun c => if c = '_' then ' ' else c))

/-- Model of `clean` from src/lib/prompt.ts: `s == null ? "" : String(s).trim()`,
on a possibly-null string. -/
def clean (s : Option String) : String := jsTrim (s.getD "")

/-- Test whether `hay` starts with `pat`. -/
def charsStart : List Char → List Char → Bool
  | _, [] => true
  | [], _ :: _ => false
  | h :: hs, p :: ps => h = p && charsStart hs ps

/-- Test whether `pat` occurs as a contiguous run inside `hay`. -/
def charsSub : List Char → List Char → Bool
  | [], pat => pat.isEmpty
  | h :: hs, pat => charsStart (h :: hs) pat || charsSub hs pat

/-- JavaScript `hay.includes(pat)` on strings (contiguous occurrence). -/
def strHas (hay pat : String) : Bool := charsSub hay.data pat.data

/-- The character class of the tokenizer regex `[\s,.;:!?()]` used both by
`scoreProduct` in Home.tsx and by `searchProducts` in supabaseClient.ts. -/
def isSep (c : Char) : Bool :=
  c.isWhitespace || c = ',' || c = '.' || c = ';' || c = ':' ||
    c = '!' || c = '?' || c = '(' || c = ')'

def dedupAux : List String → List String → List String
  | [], _ => []
  | x :: xs, seen => if x ∈ seen then dedupAux xs seen else x :: dedupAux xs (x :: seen)

/-- Model of `Array.from(new Set(xs))`: deduplication keeping first occurrences in
insertion order. -/
def dedupFirst (xs : List String) : List String := dedupAux xs []

def mapWithIdxAux (f : Nat → α → β) : Nat → List α → List β
  | _, [] => []
  | i, x :: xs => f i x :: mapWithIdxAux f (i + 1) xs

/-- Model of `xs.map((x, i) => f(i, x))`. -/
def mapWithIdx (f : Nat → α → β) (xs : List α) : List β := mapWithIdxAux f 0 xs

/-! ## Data model

`Product` mirrors the `products` row type of supabaseClient.ts.  The
`specs` JSONB mapping is modelled with its scalar values already
stringified (the code only ever passes them through `String(v)`), and a
null value for a spec key is represented by the empty string, which the
consuming filters treat the same way.  `rating` is `numeric(2,1)` or null
in the schema, so it is modelled as an optional rational, while `price`
keeps the full JS-number range because prompt sanitization explicitly
guards against non-finite values. -/

structure Product where
  id : String
  name : String
  description : Option String
  price : JSNum
  image_url : Option String
  specs : Option (List (String × String))
  category : String
  rating : Option ℚ
  created_at : String
  deriving DecidableEq, Repr

/-! ## Lexical scorer (Home.tsx `scoreProduct`, `pickBestProduct`) -/

def STOP : List String :=
  ["de", "del", "la", "el", "the", "and", "or", "para", "con", "sin", "por", "en"]

def WEAK : List String :=
  ["bluetooth", "noise", "portable", "portatil", "inalambrico", "wireless", "smart"]

/-- Query tokenization of `scoreProduct`: lowercase, split on the
separator class, keep tokens of length at least 3 that are not
stop-words. -/
def scoreTokens (q : String) : List String :=
  (jsSplit (jsLower q) isSep).filter (fun t => decide (3 ≤ t.length) && !STOP.contains t)

def ratingOf (p : Product) : ℚ := p.rating.getD 0

/-- The loop body of `scoreProduct`: weight 1 for weak-vocabulary tokens,
4 otherwise; +2w for a name occurrence, +1w for a description
occurrence. -/
def scoreStep (nameL descL : String) (s : ℚ) (t : String) : ℚ :=
  let w : ℚ := if WEAK.contains t then 1 else 4
  let s1 := if strHas nameL t then s + 2 * w else s
  if strHas descL t then s1 + 1 * w else s1

/-- Model of `scoreProduct` from Home.tsx. -/
def scoreProduct (p : Product) (q : String) : ℚ :=
  let nameL := jsLower p.name
  let descL := jsLower (p.description.getD "")
  let score := (scoreTokens q).foldl (scoreStep nameL descL) 0
  score * 10 + ratingOf p

/-- The comparator `(a, b) => scoreProduct(b, q) - scoreProduct(a, q)`
passed to `Array.prototype.sort`: `a` may precede `b` exactly when the
comparator value is ≤ 0. -/
def scoreLE (q : String) (a b : Product) : Bool :=
  decide (scoreProduct b q ≤ scoreProduct a q)

/-- Model of `pickBestProduct` from Home.tsx:
`[...list].sort((a, b) => scoreProduct(b, q) - scoreProduct(a, q))[0] ?? null`.
JavaScript's `Array.prototype.sort` is specified to be stable, so the
copy-and-sort is embedded as `List.mergeSort` (stable) with the
comparator's induced total preorder. -/
def pickBestProduct (list : List Product) (q : String) : Option Product :=
  (list.mergeSort (scoreLE q)).head?

/-! ## Chunk indexer (src/lib/rag.ts `chunkText`, `productToIndexText`,
`indexProduct`) -/

/-- Model of `(text || "").replace(/\s+/g, " ").trim()`: collapse whitespace runs
to single spaces and trim. -/
def normalizeWS (s : String) : String :=
  String.intercalate " " ((jsSplit s (fun c => c.isWhitespace)).filter (fun t => t ≠ ""))

/-- The slicing loop of `chunkText` at its (only-used) default target
length 700: `clean.slice(i, i + 700)` for `i = 0, 700, ...`.  A fuel
argument makes the recursion structural; fuel `cs.length` is enough since
every step consumes at least one character. -/
def chunkCharsFuel : Nat → List Char → List String
  | 0, _ => []
  | _, [] => []
  | fuel + 1, c :: rest =>
    String.mk ((c :: rest).take 700) :: chunkCharsFuel fuel ((c :: rest).drop 700)

/-- Model of `chunkText` from rag.ts (default target length 700). -/
def chunkText (text : String) : List String :=
  let cleanTxt := normalizeWS text
  if cleanTxt = "" then [] else chunkCharsFuel cleanTxt.data.length cleanTxt.data

/-- Model of `productToIndexText` from rag.ts: name, category, description and
flattened spec lines joined by newlines.  A spec entry is kept when its
value is non-null and nonempty after trimming (null values are modelled
as empty strings, which the same trim test drops). -/
def productToIndexText (p : Product) : String :=
  let l1 := if p.name ≠ "" then ["Nombre: " ++ p.name] else []
  let l2 := if p.category ≠ "" then ["Categoría: " ++ p.category] else []
  let l3 := match p.description with
    | some d => if d ≠ "" then ["Descripción: " ++ d] else []
    | none => []
  let specEntries := match p.specs with
    | some kvs => (kvs.filter (fun kv => jsTrim kv.2 ≠ "")).map
        (fun kv => underscoreToSpace kv.1 ++ ": " ++ kv.2)
    | none => []
  let l4 := if specEntries ≠ [] then
    "Especificaciones:" :: specEntries.map (fun s => "- " ++ s) else []
  String.intercalate "\n" (l1 ++ l2 ++ l3 ++ l4)

/-- The embedding service's task modes; document and query embeddings are
distinct (`RETRIEVAL_DOCUMENT` vs `RETRIEVAL_QUERY` in embeddings.ts). -/
inductive EmbedMode where
  | retrievalDocument
  | retrievalQuery
  deriving DecidableEq, Repr

/-- A `product_docs` insert row as built by `indexProduct` (the metadata
object holds the product's name and category). -/
structure DocInsert where
  product_id : String
  content : String
  meta_name : String
  meta_category : String
  embedding : List ℚ
  deriving DecidableEq, Repr

/-- The chunk store: the `product_docs` table contents. -/
abbrev DocStore := List DocInsert

/-- External services seen by `indexProduct`: the embedding service
(fallible) and the outcome of the bulk insert. -/
structure IndexEnv where
  embed : String → EmbedMode → Except String (List ℚ)
  insertOk : Bool
  deleteOk : Bool

/-- The per-chunk embed-and-build loop of `indexProduct`; an embedding
failure aborts the whole call (the `await` rethrows). -/
def embedRows (env : IndexEnv) (p : Product) : List String → Except String (List DocInsert)
  | [] => .ok []
  | c :: cs =>
    match env.embed c .retrievalDocument with
    | .error e => .error e
    | .ok v =>
      match embedRows env p cs with
      | .error e => .error e
      | .ok rest => .ok ({ product_id := p.id, content := c, meta_name := p.name,
                           meta_category := p.category, embedding := v } :: rest)

/-- Model of `indexProduct` from rag.ts as a transition on the chunk store: delete
the product's existing docs, chunk its index text, embed every chunk,
then bulk-insert.  The supabase delete does not throw: it reports failure
through a result object that this code discards, so a failed delete is
silent — no rows are removed and execution continues into the insert
(`deleteOk` is the outcome of that call).  A failing bulk insert, whose
error the code does check, throws (`throw insertErr`). -/
def indexProduct (env : IndexEnv) (store : DocStore) (p : Product) :
    Except String (Nat × DocStore) :=
  let store1 :=
    if env.deleteOk then store.filter (fun r => decide (r.product_id ≠ p.id)) else store
  let chunks := chunkText (productToIndexText p)
  if chunks = [] then .ok (0, store1)
  else
    match embedRows env p chunks with
    | .error e => .error e
    | .ok rows =>
      if env.insertOk then .ok (rows.length, store1 ++ rows)
      else .error "insert error"

/-! ## Context retriever (src/lib/rag.ts `fetchRagContext`) -/

/-- A row returned by the `match_product_docs` RPC as `fetchRagContext`
reads it: `content` is text, `similarity` may be null/absent (the code
defends with `row.similarity ?? 0`). -/
structure DocRow where
  content : String
  similarity : Option ℚ
  deriving DecidableEq, Repr

/-- An element of `context_chunks` as produced by `fetchRagContext`. -/
structure RChunk where
  text : String
  similarity : ℚ
  deriving DecidableEq, Repr

/-- External services used by `fetchRagContext`: the embedding service
(throws on failure) and the `match_product_docs` RPC, which — like every
supabase call — reports failure through an error field rather than by
throwing, and whose data may be null. -/
structure RagEnv where
  embed : String → EmbedMode → Except String (List ℚ)
  rpc : List ℚ → Nat → Option String → Except String (Option (List DocRow))

structure RagResult where
  hasProductInfo : Bool
  context_chunks : List RChunk
  deriving DecidableEq, Repr

/-- Model of `fetchRagContext` from rag.ts.  The embedding call sits outside any
try/catch, so its failure propagates; an RPC error is converted into an
empty result. -/
def fetchRagContext (env : RagEnv) (userQuery : String) (productId : Option String)
    (topK : Nat := 6) : Except String RagResult :=
  let q := jsTrim userQuery
  if q = "" then .ok { hasProductInfo := false, context_chunks := [] }
  else
    match env.embed q .retrievalQuery with
    | .error e => .error e
    | .ok vec =>
      match env.rpc vec topK productId with
      | .error _ => .ok { hasProductInfo := false, context_chunks := [] }
      | .ok data =>
        .ok { hasProductInfo := true,
              context_chunks := (data.getD []).map
                (fun r => { text := r.content, similarity := r.similarity.getD 0 }) }

/-! ## Catalog search (supabaseClient.ts `searchProducts`, the typed
variant at lines 422-504) -/

def SYN_headphones : List String :=
  ["headphone", "headphones", "audifono", "audífono", "audifonos", "audífonos",
   "auricular", "auriculares", "cascos", "noise", "cancelación", "cancelacion",
   "noise-cancelling", "over-ear", "bluetooth"]

def SYN_smartwatch : List String :=
  ["smartwatch", "watch", "reloj", "reloj inteligente", "fitness", "deportivo",
   "tracker", "pulsera", "gps"]

def SYN_chair : List String :=
  ["chair", "silla", "silla de oficina", "oficina", "ergonómica", "ergonomica",
   "respaldo", "lumbar", "escritorio"]

def SYN_bottle : List String :=
  ["bottle", "botella", "termo", "acero", "inoxidable", "stainless", "steel",
   "reusable", "deportiva"]

def SYN_keyboard : List String :=
  ["keyboard", "teclado", "mecánico", "mecanico", "gamer", "gaming", "switch",
   "switches", "rgb", "retroiluminado"]

def SYN_yogamat : List String :=
  ["yoga", "yoga mat", "tapete", "colchoneta", "mat", "antideslizante"]

def SYN_coffeemaker : List String :=
  ["coffee", "coffe maker", "coffee maker", "cafetera", "espresso", "goteo", "filtro"]

def SYN_laptopbag : List String :=
  ["laptop", "notebook", "maletin", "maletín", "maleta", "mochila", "bolso",
   "bag", "funda", "cuero", "case"]

def SYN_smartspeaker : List String :=
  ["smart speaker", "bocina", "altavoz", "altavoz inteligente", "bocina inteligente",
   "asistente", "hogar", "smart home"]

def SYN_runningshoes : List String :=
  ["running", "shoes", "tenis", "zapatillas", "correr", "deportivos"]

def SYN_btspeaker : List String :=
  ["bluetooth", "speaker", "parlante", "bocina", "portatil", "portátil", "portable"]

def SYN_standingdesk : List String :=
  ["standing", "desk", "converter", "convertidor", "escritorio de pie", "elevador",
   "soporte", "ajustable"]

/-- Model of `Object.values(SYNS)` in the object's insertion order. -/
def SYNS : List (List String) :=
  [SYN_headphones, SYN_smartwatch, SYN_chair, SYN_bottle, SYN_keyboard,
   SYN_yogamat, SYN_coffeemaker, SYN_laptopbag, SYN_smartspeaker,
   SYN_runningshoes, SYN_btspeaker, SYN_standingdesk]

/-- Model of `expanded.add(w)` on a JS `Set` modelled as an insertion-ordered list. -/
def addWord (acc : List String) (w : String) : List String :=
  if w ∈ acc then acc else acc ++ [w]

/-- The synonym-expansion loops of `searchProducts`: for each base token,
every synonym entry containing it contributes all of its words. -/
def expandTokens (base : List String) : List String :=
  base.foldl (fun acc t =>
    SYNS.foldl (fun acc2 entry => if t ∈ entry then entry.foldl addWord acc2 else acc2) acc)
    base

/-- The `catAliases` mapping of the category-inference fallback, in its
insertion order. -/
def catAliases : List (String × List String) :=
  [("Electronics", SYN_headphones ++ SYN_smartwatch ++ SYN_keyboard ++
      SYN_smartspeaker ++ SYN_btspeaker),
   ("Furniture", SYN_chair ++ SYN_standingdesk),
   ("Home & Kitchen", SYN_coffeemaker ++ SYN_bottle),
   ("Sports", SYN_yogamat ++ SYN_runningshoes),
   ("Accessories", SYN_laptopbag)]

/-- The first category whose alias words intersect the expanded tokens
(`words.some((w) => tokens.includes(w))`, scanned in insertion order). -/
def firstCat (tokens : List String) : Option String :=
  (catAliases.find? (fun c => c.2.any (fun w => tokens.contains w))).map (fun c => c.1)

/-- A datastore request issued by `searchProducts`: the ILIKE-OR filter
query over the tokens, or the category-fallback query. -/
inductive DbCall where
  | orCall (tokens : List String) (limit : Nat)
  | catCall (category : String) (limit : Nat)
  deriving DecidableEq, Repr

/-- The catalog datastore as seen by `searchProducts`; each supabase call
yields either an error or possibly-null data. -/
structure SearchEnv where
  orQuery : List String → Nat → Except String (Option (List Product))
  catQuery : String → Nat → Except String (Option (List Product))

/-- Model of `searchProducts` from supabaseClient.ts, instrumented with the list
of datastore calls it issues.  Tokens of length ≥ 3 are deduplicated and
capped at 12 before synonym expansion; the expanded set is capped at 12
again; the disjunctive ILIKE filter runs first and an empty result falls
back to category inference. -/
def searchProducts (env : SearchEnv) (queryText : String) (limit : Nat := 12) :
    List Product × List DbCall :=
  let raw := jsLower (jsTrim queryText)
  if raw = "" then ([], [])
  else
    let baseTokens :=
      (dedupFirst ((jsSplit raw isSep).filter (fun t => decide (3 ≤ t.length)))).take 12
    let tokens := (expandTokens baseTokens).take 12
    if tokens = [] then ([], [])
    else
      match env.orQuery tokens limit with
      | .error _ => ([], [.orCall tokens limit])
      | .ok dataOpt =>
        let d := dataOpt.getD []
        if d.isEmpty then
          match firstCat tokens with
          | some cat =>
            match env.catQuery cat limit with
            | .error _ => ([], [.orCall tokens limit, .catCall cat limit])
            | .ok byCat => (byCat.getD [], [.orCall tokens limit, .catCall cat limit])
          | none => (d, [.orCall tokens limit])
        else (d, [.orCall tokens limit])

/-! ## Prompt assembler (src/lib/prompt.ts) -/

def BAD_NAMES : List String := ["Product Name", "Producto", "Product", "ProductName"]

def BAD_DESCS : List String := ["Product description", "Descripción del producto", "Description"]

/-- Model of `normalizePrice`: keep finite, strictly positive prices. -/
def normalizePrice (v : JSNum) : Option ℚ :=
  match v with
  | .fin n => if 0 < n then some n else none
  | .nonfinite => none

/-- Model of `Number(n.toFixed(1))`: rounding to one decimal, modelled exactly. -/
def round1 (q : ℚ) : ℚ := (round (q * 10) : ℤ) / 10

/-- Model of `normalizeRating`: keep finite, strictly positive ratings rounded to
one decimal.  The rating column is `numeric(2,1)` or null, so the input
is an optional rational; `Number(null) = 0` fails the `n > 0` test. -/
def normalizeRating (v : Option ℚ) : Option ℚ :=
  match v with
  | some n => if 0 < n then some (round1 n) else none
  | none => none

structure SanitizedProduct where
  id : String
  name : String
  description : String
  category : String
  price : Option ℚ
  rating : Option ℚ
  specs : Option (List (String × String))
  deriving DecidableEq, Repr

/-- Model of `sanitizeProduct` from prompt.ts: trim, drop placeholder sentinels,
drop non-positive/non-finite price and rating. -/
def sanitizeProduct (p : Product) : SanitizedProduct :=
  let nm := clean (some p.name)
  let ds := clean p.description
  { id := clean (some p.id)
    name := if nm ≠ "" ∧ BAD_NAMES.contains nm = false then nm else ""
    description := if ds ≠ "" ∧ BAD_DESCS.contains ds = false then ds else ""
    category := clean (some p.category)
    price := normalizePrice p.price
    rating := normalizeRating p.rating
    specs := p.specs }

/-- Model of `specsToLines`: up to 8 spec entries with nonempty cleaned key
(underscores rendered as spaces) and nonempty cleaned value. -/
def specsToLines (specs : Option (List (String × String))) : List String :=
  match specs with
  | none => []
  | some kvs =>
    ((((kvs.map (fun kv => (underscoreToSpace (clean (some kv.1)), clean (some kv.2)))).filter
        (fun kv => decide (kv.1 ≠ "") && decide (kv.2 ≠ ""))).map
      (fun kv => "- " ++ kv.1 ++ ": " ++ kv.2)).take 8)

/-- Model of `buildFacts`: one labeled line per surviving sanitized field, in the
source's push order. -/
def buildFacts (p : SanitizedProduct) : List String :=
  (if p.name ≠ "" then ["- Nombre: " ++ p.name] else []) ++
  (if p.category ≠ "" then ["- Categoría: " ++ p.category] else []) ++
  (match p.price with | some q => ["- Precio aprox.: $" ++ numStr q] | none => []) ++
  (match p.rating with | some q => ["- Valoración: " ++ numStr q] | none => []) ++
  (if p.description ≠ "" then ["- Descripción: " ++ p.description] else [])

/-- Model of `facts.length ? facts.join("\n") : "(sin hechos adicionales)"`. -/
def factsBlockOf (facts : List String) : String :=
  if facts.length ≠ 0 then String.intercalate "\n" facts else "(sin hechos adicionales)"

/-- A chunk object inside Home.tsx: a JS object with a `text` property
and a possibly-absent `similarity` property (reading an absent property
yields `undefined`, modelled as `none`). -/
structure JChunk where
  text : String
  similarity : Option ℚ
  deriving DecidableEq, Repr

/-- The context block of `buildPrompt`: up to 6 chunks, each prefixed
with an index marker, joined by blank lines; the join being empty falls
back to the explicit no-context marker. -/
def ctxBlock (chunks : List JChunk) : String :=
  let rendered := (mapWithIdx
    (fun i c => "[#" ++ toString (i + 1) ++ "] " ++ clean (some c.text))
    (chunks.take 6)).filter (fun s => decide (s ≠ ""))
  let joined := String.intercalate "\n\n" rendered
  if joined ≠ "" then joined else "(sin contexto adicional)"

/-- Model of `buildPrompt` from prompt.ts: the fixed-format instruction prompt
composed from the facts, specs and context blocks. -/
def buildPrompt (product : Product) (chunks : List JChunk) (userQuery : String) : String :=
  let p := sanitizeProduct product
  let factsBlock := factsBlockOf (buildFacts p)
  let specLines := specsToLines p.specs
  let specsBlock := if specLines.length ≠ 0 then String.intercalate "\n" specLines else ""
  let ctx := ctxBlock chunks
  "\nERES: Un asistente de compras. Responde SIEMPRE en español, claro y conciso.\n\n" ++
  "REGLAS IMPORTANTES:\n" ++
  "- Usa SOLO la información de \"DATOS CONFIABLES\", \"ESPECIFICACIONES\" y \"CONTEXTO\".\n" ++
  "- No inventes datos. Si falta info para confirmar algo, dilo explícitamente al final.\n" ++
  "- No menciones valores vacíos ni \"no disponible\" salvo que el usuario lo pida.\n" ++
  "- No muestres precios de $0; si no hay precio, omítelo.\n" ++
  "- Responde en 3–6 líneas. Si procede, sugiere 1–3 filtros/pasos concretos.\n\n" ++
  "DATOS CONFIABLES:\n" ++ factsBlock ++ "\n\n" ++
  (if specsBlock ≠ "" then "ESPECIFICACIONES:\n" ++ specsBlock ++ "\n" else "") ++
  "CONTEXTO:\n" ++ ctx ++ "\n\n" ++
  "CONSULTA DEL USUARIO:\n\"" ++ userQuery ++ "\"\n\n" ++
  "TAREA:\n1) Responde de forma útil con los datos presentes.\n" ++
  "2) Si el usuario pregunta si es p. ej. \"smart fitness watch\" y NO hay evidencia " ++
  "en especificaciones/contexto, responde: \"No hay información suficiente para " ++
  "confirmarlo\" y sugiere 1–3 filtros (p.ej., \"GPS\", \"monitor de ritmo cardíaco\", " ++
  "\"resistencia al agua\").\n3) Evita mencionar campos ausentes. Enfócate en lo que sí sabemos.\n"

/-! ## Home.tsx chunk normalization and orchestrator helpers -/

/-- Model of `normalizeChunks` from Home.tsx, on the array of `{text, similarity}`
chunks that `fetchRagContext` produces: every element is mapped to an
object holding only a `text` property (the `typeof c.text === 'string'`
branch), so the resulting object has no `similarity` property. -/
def normalizeChunks (raw : List RChunk) : List JChunk :=
  raw.map (fun c => { text := c.text, similarity := none })

/-- The Home.tsx post-normalization filter
`(c) => Number(c.similarity ?? 0) >= 0.55`. -/
def homeSimFilter (c : JChunk) : Bool := decide ((11 : ℚ) / 20 ≤ c.similarity.getD 0)

/-- Model of `fmtPrice` from Home.tsx: dollar rendering for finite positive
prices, an em-dash otherwise. -/
def fmtPrice (v : JSNum) : String :=
  match v with
  | .fin n => if 0 < n then "$" ++ numStr n else "—"
  | .nonfinite => "—"

/-- Model of the `p.rating ?? "N/A"` rendering inside the clarification bullets (the source uses single-quoted string literals). -/
def ratingStr (r : Option ℚ) : String :=
  match r with
  | some q => numStr q
  | none => "N/A"

/-! ## Answer orchestrator (Home.tsx `handleVoiceOrTextQuery`) -/

inductive Role where
  | user
  | assistant
  deriving DecidableEq, Repr

/-- A conversation message (`Msg` in Home.tsx). -/
structure Msg where
  role : Role
  content : String
  deriving DecidableEq, Repr

/-- External collaborators of the orchestrator: catalog search (its own
error handling already folded in, but `await` can still rethrow a
datastore-layer exception), the context retriever (whose embedding
failures propagate), and the completion service (`askGemini`, which
returns the first non-empty candidate text, an empty string when all
models fail soft, and throws when the API key is missing). -/
structure OrchEnv where
  search : String → Except String (List Product)
  rag : String → String → Except String (List RChunk)
  gemini : String → Except String String

/-- The outcome of one orchestrator turn: the returned reply, the
messages appended to the conversation log, and the prompts sent to the
completion service, in order. -/
structure TurnResult where
  reply : String
  log : List Msg
  geminiPrompts : List String
  deriving DecidableEq, Repr

/-- The clarification bullets: `found.slice(0, 3).map((p, i) => ...)`. -/
def bulletsOf (found : List Product) : String :=
  String.intercalate "\n" (mapWithIdx (fun i p =>
    toString (i + 1) ++ ". " ++ p.name ++ " — " ++ fmtPrice p.price ++ " — ⭐ " ++
      ratingStr p.rating ++ " (" ++ p.category ++ ")") (found.take 3))

/-- The keyword-suggestion prompt sent when catalog search finds nothing. -/
def tipPrompt (userQuery : String) : String :=
  "No encontré productos en la base para: \"" ++ userQuery ++ "\".\n" ++
  "Responde en español con 2–4 líneas de sugerencias de palabras clave y filtros concretos."

/-- The simple name-only fallback prompt used when the RAG/prompt/primary
completion block throws. -/
def fallbackPrompt (userQuery nm : String) : String :=
  "Eres un asistente de compras y debes responder SIEMPRE en español.\n" ++
  "Usuario: \"" ++ userQuery ++ "\".\nProducto: " ++ nm ++
  ".\nSé breve (3–5 líneas) y útil, basándote solo en el nombre del producto."

/-- The resolved-product branch of `handleVoiceOrTextQuery` (Option B in
the source): the inner try block runs retrieval, chunk filtering, prompt
building and the primary completion call; its catch block sends the
name-only fallback prompt once; an exception from that second call
escapes to the outer catch, which yields the fixed apology. -/
def handleResolvedProduct (env : OrchEnv) (userQuery : String) (product : Product) :
    TurnResult :=
  let uMsg : Msg := { role := .user, content := userQuery }
  let grave := "Ocurrió un problema grave. Intenta nuevamente."
  match env.rag product.id userQuery with
  | .ok cs =>
    let chunks := (normalizeChunks cs).filter homeSimFilter
    let prompt := buildPrompt product chunks userQuery
    match env.gemini prompt with
    | .ok t =>
      let replyText := if t ≠ "" then t else "Ahora mismo no pude obtener respuesta."
      { reply := replyText, log := [uMsg, { role := .assistant, content := replyText }],
        geminiPrompts := [prompt] }
    | .error _ =>
      match env.gemini (fallbackPrompt userQuery product.name) with
      | .ok t =>
        let replyText := if t ≠ "" then t else
          "Hubo un error al buscar información detallada. Intenta nuevamente."
        { reply := replyText, log := [uMsg, { role := .assistant, content := replyText }],
          geminiPrompts := [prompt, fallbackPrompt userQuery product.name] }
      | .error _ =>
        { reply := grave, log := [uMsg, { role := .assistant, content := grave }],
          geminiPrompts := [prompt, fallbackPrompt userQuery product.name] }
  | .error _ =>
    match env.gemini (fallbackPrompt userQuery product.name) with
    | .ok t =>
      let replyText := if t ≠ "" then t else
        "Hubo un error al buscar información detallada. Intenta nuevamente."
      { reply := replyText, log := [uMsg, { role := .assistant, content := replyText }],
        geminiPrompts := [fallbackPrompt userQuery product.name] }
    | .error _ =>
      { reply := grave, log := [uMsg, { role := .assistant, content := grave }],
        geminiPrompts := [fallbackPrompt userQuery product.name] }

/-- Model of `handleVoiceOrTextQuery` from Home.tsx.  The outer try/catch turns
any escaped exception into the fixed apology; the inner try/catch around
retrieval + prompt building + the primary completion call falls back to
the name-only prompt; an empty (but not thrown) completion result is
replaced by a fixed string via `||` without a second call. -/
def handleVoiceOrTextQuery (env : OrchEnv) (q : String) (contextProduct : Option Product) :
    TurnResult :=
  let userQuery := jsTrim q
  if userQuery = "" then
    { reply := "No se detectó una consulta válida.", log := [], geminiPrompts := [] }
  else
    let uMsg : Msg := { role := .user, content := userQuery }
    let grave := "Ocurrió un problema grave. Intenta nuevamente."
    match env.search userQuery with
    | .error _ =>
      { reply := grave, log := [uMsg, { role := .assistant, content := grave }],
        geminiPrompts := [] }
    | .ok found =>
      let product := if found.isEmpty then contextProduct else pickBestProduct found userQuery
      match product with
      | none =>
        if found.isEmpty then
          match env.gemini (tipPrompt userQuery) with
          | .ok tip =>
            let replyText := if tip ≠ "" then tip else
              "No encontré coincidencias. Prueba con palabras más concretas o una categoría."
            { reply := replyText, log := [uMsg, { role := .assistant, content := replyText }],
              geminiPrompts := [tipPrompt userQuery] }
          | .error _ =>
            { reply := grave, log := [uMsg, { role := .assistant, content := grave }],
              geminiPrompts := [tipPrompt userQuery] }
        else
          let replyText := "Encontré " ++ toString found.length ++ " coincidencias:\n" ++
            bulletsOf found ++ "\n\nDi el número o nombre para ver detalles."
          { reply := replyText, log := [uMsg, { role := .assistant, content := replyText }],
            geminiPrompts := [] }
      | some product => handleResolvedProduct env userQuery product

/-- The number of assistant messages appended to a log. -/
def countAssistant (log : List Msg) : Nat :=
  (log.filter (fun m => decide (m.role = Role.assistant))).length

/-! ## Claim C2: the similarity filter after `normalizeChunks` removes
every chunk -/

lemma homeSimFilter_none (t : String) : homeSimFilter { text := t, similarity := none } = false := by
  simp only [homeSimFilter, Option.getD_none, decide_eq_false_iff_not]
  norm_num

/-- Claim C2: in the resolved-product path, `normalizeChunks` maps every
retrieved chunk to an object holding only a `text` field, so the
subsequent `Number(c.similarity ?? 0) >= 0.55` filter removes all chunks;
`buildPrompt` therefore always receives an empty chunk list and the
prompt's context block is the "(sin contexto adicional)" marker. -/
theorem home_filter_removes_all_chunks (cs : List RChunk) (p : Product) (uq : String) :
    (normalizeChunks cs).filter homeSimFilter = [] ∧
    ctxBlock ((normalizeChunks cs).filter homeSimFilter) = "(sin contexto adicional)" ∧
    buildPrompt p ((normalizeChunks cs).filter homeSimFilter) uq = buildPrompt p [] uq := by
  have h : (normalizeChunks cs).filter homeSimFilter = [] := by
    induction cs with
    | nil => rfl
    | cons c rest ih => simp [normalizeChunks, homeSimFilter_none, ih]
  exact ⟨h, by rw [h]; rfl, by rw [h]⟩

/-! ## Claim C1: the retriever applies no similarity floor -/

def ragEnvC1 : RagEnv :=
  { embed := fun _ _ => .ok [1]
    rpc := fun _ _ _ => .ok (some [{ content := "Batería: 30 horas", similarity := some (3 / 10) }]) }

/-- Claim C1 counterexample: a nearest-neighbor lookup that returns a row
of similarity 0.3 makes `fetchRagContext` return a chunk of similarity
0.3 < 0.55 — no result below the 0.55 floor is discarded. -/
theorem fetchRagContext_below_floor_cex :
    fetchRagContext ragEnvC1 "hola" none 6 =
      .ok { hasProductInfo := true,
            context_chunks := [{ text := "Batería: 30 horas", similarity := 3 / 10 }] } ∧
    (3 / 10 : ℚ) < 11 / 20 := by
  exact ⟨rfl, by norm_num⟩

/-- Claim C1 (amended): `fetchRagContext` applies no similarity floor at
all: whenever the query is nonempty after trimming, the embedding call
succeeds and the lookup succeeds, the returned `context_chunks` are
exactly the lookup's rows in order, each normalized to
`{text: String(content), similarity: Number(similarity ?? 0)}` — rows
below similarity 0.55 included. -/
theorem fetchRagContext_returns_rows_unfiltered (env : RagEnv) (uq : String)
    (pid : Option String) (k : Nat) (vec : List ℚ) (data : Option (List DocRow))
    (hq : jsTrim uq ≠ "")
    (he : env.embed (jsTrim uq) .retrievalQuery = .ok vec)
    (hr : env.rpc vec k pid = .ok data) :
    fetchRagContext env uq pid k =
      .ok { hasProductInfo := true,
            context_chunks := (data.getD []).map
              (fun r => { text := r.content, similarity := r.similarity.getD 0 }) } := by
  unfold fetchRagContext
  rw [if_neg hq, he]
  dsimp only
  rw [hr]

theorem fetchRagContext_returns_rows_unfiltered_witness :
    fetchRagContext ragEnvC1 "que batería tiene" none 5 =
      .ok { hasProductInfo := true,
            context_chunks := [{ text := "Batería: 30 horas", similarity := 3 / 10 }] } :=
  fetchRagContext_returns_rows_unfiltered ragEnvC1 "que batería tiene" none 5 [1]
    (some [{ content := "Batería: 30 horas", similarity := some (3 / 10) }])
    (by decide) rfl rfl

/-! ## Claim C3: which retrieval failures are caught -/

def ragEnvC3 : RagEnv :=
  { embed := fun _ _ => .error "embedding service unavailable"
    rpc := fun _ _ _ => .ok (some []) }

def ragEnvC3b : RagEnv :=
  { embed := fun _ _ => .ok [1, 2]
    rpc := fun _ _ _ => .error "rpc failed" }

/-- Claim C3 counterexample: a failure of the embedding service is not
caught by `fetchRagContext` — the exception propagates to the caller
instead of degrading to an empty `context_chunks` result. -/
theorem fetchRagContext_embed_error_propagates_cex :
    fetchRagContext ragEnvC3 "cuánto pesa" none 6 = .error "embedding service unavailable" := rfl

/-- Claim C3 (amended): inside `fetchRagContext` only the chunk-store
lookup failure is caught and converted into an empty `context_chunks`
result; a failure of the embedding service propagates as an exception to
the caller (where the orchestrator's inner try/catch absorbs it). -/
theorem fetchRagContext_error_handling (env : RagEnv) (uq : String) (pid : Option String)
    (k : Nat) (hq : jsTrim uq ≠ "") :
    (∀ e, env.embed (jsTrim uq) .retrievalQuery = .error e →
      fetchRagContext env uq pid k = .error e) ∧
    (∀ vec e, env.embed (jsTrim uq) .retrievalQuery = .ok vec →
      env.rpc vec k pid = .error e →
      fetchRagContext env uq pid k = .ok { hasProductInfo := false, context_chunks := [] }) := by
  constructor
  · intro e he
    unfold fetchRagContext
    rw [if_neg hq, he]
  · intro vec e he hr
    unfold fetchRagContext
    rw [if_neg hq, he]
    dsimp only
    rw [hr]

theorem fetchRagContext_error_handling_witness :
    fetchRagContext ragEnvC3 "hola" none 6 = .error "embedding service unavailable" ∧
    fetchRagContext ragEnvC3b "hola" none 6 =
      .ok { hasProductInfo := false, context_chunks := [] } :=
  ⟨(fetchRagContext_error_handling ragEnvC3 "hola" none 6 (by decide)).1
      "embedding service unavailable" rfl,
   (fetchRagContext_error_handling ragEnvC3b "hola" none 6 (by decide)).2
      [1, 2] "rpc failed" rfl rfl⟩

/-! ## Claim C5: when does catalog search skip the datastore -/

def searchEnvC5 : SearchEnv :=
  { orQuery := fun _ _ => .ok (some []), catQuery := fun _ _ => .ok (some []) }

/-- Claim C5 counterexample: "para" is a stop-word of length ≥ 3, so its
usable tokens after stop-word and minimum-length filtering are zero (its
`scoreTokens` are empty), yet `searchProducts` — which filters only by
length — does issue a datastore query for it. -/
theorem searchProducts_stopword_calls_db_cex :
    scoreTokens "para" = [] ∧
    (searchProducts searchEnvC5 "para" 12).2 = [DbCall.orCall ["para"] 12] := by
  constructor
  · decide
  · decide

/-- Claim C5 (amended): `searchProducts` filters tokens only by minimum
length (3 characters), with no stop-word filtering; whenever the query
has no token of length ≥ 3 it returns an empty sequence without issuing
any datastore query. -/
theorem searchProducts_no_long_tokens (env : SearchEnv) (q : String) (limit : Nat)
    (h : (jsSplit (jsLower (jsTrim q)) isSep).filter (fun t => decide (3 ≤ t.length)) = []) :
    searchProducts env q limit = ([], []) := by
  unfold searchProducts
  by_cases hr : jsLower (jsTrim q) = ""
  · rw [if_pos hr]
  · rw [if_neg hr]
    simp [h, dedupFirst, dedupAux, expandTokens]

theorem searchProducts_no_long_tokens_witness :
    searchProducts searchEnvC5 "de la" 12 = ([], []) :=
  searchProducts_no_long_tokens searchEnvC5 "de la" 12 (by decide)

/-! ## Claim C6: the lexical scorer equals its reference definition -/

def specWeight (t : String) : ℚ := if WEAK.contains t then 1 else 4

/-- Per-token contribution of the reference scorer: 2×weight for a
case-insensitive substring occurrence in the name, 1×weight for one in
the description. -/
def specTokenScore (nameL descL t : String) : ℚ :=
  (if strHas nameL t then 2 * specWeight t else 0) +
  (if strHas descL t then specWeight t else 0)

/-- Reference definition of the scorer as stated by the claim: the sum
of per-token contributions, multiplied by 10, plus the rating
(default 0). -/
def scoreProductRef (p : Product) (q : String) : ℚ :=
  10 * ((scoreTokens q).map
    (specTokenScore (jsLower p.name) (jsLower (p.description.getD "")))).sum + ratingOf p

lemma scoreStep_eq (nameL descL : String) (s : ℚ) (t : String) :
    scoreStep nameL descL s t = s + specTokenScore nameL descL t := by
  unfold scoreStep specTokenScore specWeight
  by_cases hw : WEAK.contains t <;>
    cases h1 : strHas nameL t <;> cases h2 : strHas descL t <;>
      simp [hw, h1, h2] <;> ring

lemma score_foldl (nameL descL : String) (toks : List String) (s : ℚ) :
    toks.foldl (scoreStep nameL descL) s =
      s + (toks.map (specTokenScore nameL descL)).sum := by
  induction toks generalizing s with
  | nil => simp
  | cons t ts ih =>
    rw [List.foldl_cons, ih, scoreStep_eq, List.map_cons, List.sum_cons]
    ring

/-- Claim C6: `scoreProduct` is pure and equal to the reference
definition (tokenize, drop short tokens and stop-words, weight 1 for
weak-vocabulary tokens and 4 otherwise, 2×weight per name occurrence and
1×weight per description occurrence, times 10, plus the rating); in
particular a query that is empty after filtering scores exactly the
rating. -/
theorem scoreProduct_reference_spec (p : Product) (q : String) :
    scoreProduct p q = scoreProductRef p q ∧
    (scoreTokens q = [] → scoreProduct p q = ratingOf p) := by
  have h : scoreProduct p q = scoreProductRef p q := by
    unfold scoreProduct scoreProductRef
    dsimp only
    rw [score_foldl]
    ring
  refine ⟨h, fun he => ?_⟩
  rw [h]
  unfold scoreProductRef
  rw [he]
  simp

def productC6 : Product :=
  { id := "w6", name := "Smart Fitness Watch", description := some "Advanced fitness tracker"
    price := .fin 249, image_url := none, specs := none, category := "Electronics"
    rating := some (23 / 5), created_at := "2025" }

theorem scoreProduct_reference_spec_witness :
    scoreProduct productC6 "de la" = ratingOf productC6 :=
  (scoreProduct_reference_spec productC6 "de la").2 (by decide)

/-! ## Claim C8: the reliable-facts block only shows sanitized fields -/

/-- Claim C8: the facts block never contains a price line for a
non-positive or non-finite price, never a name/description line for a
placeholder sentinel, contains only lines of fields that survived
sanitization, and degrades to the explicit "(sin hechos adicionales)"
marker when no field survives. -/
theorem buildFacts_sanitization_spec (p : Product) :
    (JSNum.finPos p.price = false → (sanitizeProduct p).price = none) ∧
    (BAD_NAMES.contains (clean (some p.name)) = true → (sanitizeProduct p).name = "") ∧
    (BAD_DESCS.contains (clean p.description) = true → (sanitizeProduct p).description = "") ∧
    (∀ line ∈ buildFacts (sanitizeProduct p),
      ((sanitizeProduct p).name ≠ "" ∧ line = "- Nombre: " ++ (sanitizeProduct p).name) ∨
      ((sanitizeProduct p).category ≠ "" ∧
        line = "- Categoría: " ++ (sanitizeProduct p).category) ∨
      (∃ q, (sanitizeProduct p).price = some q ∧ line = "- Precio aprox.: $" ++ numStr q) ∨
      (∃ q, (sanitizeProduct p).rating = some q ∧ line = "- Valoración: " ++ numStr q) ∨
      ((sanitizeProduct p).description ≠ "" ∧
        line = "- Descripción: " ++ (sanitizeProduct p).description)) ∧
    (buildFacts (sanitizeProduct p) = [] →
      factsBlockOf (buildFacts (sanitizeProduct p)) = "(sin hechos adicionales)") := by
  refine ⟨?_, ?_, ?_, ?_, ?_⟩
  · intro hbad
    unfold sanitizeProduct normalizePrice
    cases hp : p.price with
    | nonfinite => rfl
    | fin n =>
      rw [hp] at hbad
      unfold JSNum.finPos at hbad
      simp only [decide_eq_false_iff_not] at hbad
      simp [hbad]
  · intro hbad
    unfold sanitizeProduct
    dsimp only
    have hcond : ¬(clean (some p.name) ≠ "" ∧
        BAD_NAMES.contains (clean (some p.name)) = false) := by
      rintro ⟨-, hfalse⟩
      rw [hbad] at hfalse
      cases hfalse
    rw [if_neg hcond]
  · intro hbad
    unfold sanitizeProduct
    dsimp only
    have hcond : ¬(clean p.description ≠ "" ∧
        BAD_DESCS.contains (clean p.description) = false) := by
      rintro ⟨-, hfalse⟩
      rw [hbad] at hfalse
      cases hfalse
    rw [if_neg hcond]
  · intro line hline
    unfold buildFacts at hline
    simp only [List.mem_append] at hline
    rcases hline with ((((h | h) | h) | h) | h)
    · by_cases hc : (sanitizeProduct p).name ≠ ""
      · rw [if_pos hc] at h
        simp only [List.mem_singleton] at h
        exact Or.inl ⟨hc, h⟩
      · rw [if_neg hc] at h
        cases h
    · by_cases hc : (sanitizeProduct p).category ≠ ""
      · rw [if_pos hc] at h
        simp only [List.mem_singleton] at h
        exact Or.inr (Or.inl ⟨hc, h⟩)
      · rw [if_neg hc] at h
        cases h
    · cases hp : (sanitizeProduct p).price with
      | none => rw [hp] at h; cases h
      | some v =>
        rw [hp] at h
        simp only [List.mem_singleton] at h
        exact Or.inr (Or.inr (Or.inl ⟨v, rfl, h⟩))
    · cases hp : (sanitizeProduct p).rating with
      | none => rw [hp] at h; cases h
      | some v =>
        rw [hp] at h
        simp only [List.mem_singleton] at h
        exact Or.inr (Or.inr (Or.inr (Or.inl ⟨v, rfl, h⟩)))
    · by_cases hc : (sanitizeProduct p).description ≠ ""
      · rw [if_pos hc] at h
        simp only [List.mem_singleton] at h
        exact Or.inr (Or.inr (Or.inr (Or.inr ⟨hc, h⟩)))
      · rw [if_neg hc] at h
        cases h
  · intro h
    rw [h]
    rfl

def productC8bad : Product :=
  { id := "b8", name := " Producto ", description := some "Description"
    price := .fin (-5), image_url := none, specs := none, category := "Electronics"
    rating := some 4, created_at := "2025" }

theorem buildFacts_sanitization_spec_witness :
    (sanitizeProduct productC8bad).price = none ∧
    (sanitizeProduct productC8bad).name = "" ∧
    (sanitizeProduct productC8bad).description = "" ∧
    (((sanitizeProduct productC8bad).name ≠ "" ∧
        "- Categoría: Electronics" = "- Nombre: " ++ (sanitizeProduct productC8bad).name) ∨
      ((sanitizeProduct productC8bad).category ≠ "" ∧
        "- Categoría: Electronics" = "- Categoría: " ++ (sanitizeProduct productC8bad).category) ∨
      (∃ q, (sanitizeProduct productC8bad).price = some q ∧
        "- Categoría: Electronics" = "- Precio aprox.: $" ++ numStr q) ∨
      (∃ q, (sanitizeProduct productC8bad).rating = some q ∧
        "- Categoría: Electronics" = "- Valoración: " ++ numStr q) ∨
      ((sanitizeProduct productC8bad).description ≠ "" ∧
        "- Categoría: Electronics" = "- Descripción: " ++
          (sanitizeProduct productC8bad).description)) := by
  refine ⟨(buildFacts_sanitization_spec productC8bad).1 (by decide),
    (buildFacts_sanitization_spec productC8bad).2.1 (by decide),
    (buildFacts_sanitization_spec productC8bad).2.2.1 (by decide),
    (buildFacts_sanitization_spec productC8bad).2.2.2.1 "- Categoría: Electronics" (by decide)⟩

/-! ## Claim C9: reindexing is idempotent and fully replaces the
product's chunk generation -/

lemma filter_ne_then_eq (l : DocStore) (pid : String) :
    (l.filter (fun r => decide (r.product_id ≠ pid))).filter
      (fun r => decide (r.product_id = pid)) = [] := by
  induction l with
  | nil => rfl
  | cons r rs ih => by_cases h : r.product_id = pid <;> simp [h, ih]

lemma filter_ne_idem (l : DocStore) (pid : String) :
    (l.filter (fun r => decide (r.product_id ≠ pid))).filter
      (fun r => decide (r.product_id ≠ pid)) =
      l.filter (fun r => decide (r.product_id ≠ pid)) := by
  induction l with
  | nil => rfl
  | cons r rs ih => by_cases h : r.product_id = pid <;> simp [h, ih]

lemma embedRows_pid (env : IndexEnv) (p : Product) (chunks : List String)
    (rows : List DocInsert) (h : embedRows env p chunks = .ok rows) :
    ∀ r ∈ rows, r.product_id = p.id := by
  induction chunks generalizing rows with
  | nil =>
    unfold embedRows at h
    cases h
    simp
  | cons c cs ih =>
    unfold embedRows at h
    cases he : env.embed c .retrievalDocument with
    | error e => rw [he] at h; cases h
    | ok v =>
      rw [he] at h
      cases hr : embedRows env p cs with
      | error e => rw [hr] at h; cases h
      | ok rest =>
        rw [hr] at h
        cases h
        intro r hrr
        rcases List.mem_cons.mp hrr with h1 | h1
        · rw [h1]
        · exact ih rest hr r h1

def indexEnvC9 : IndexEnv :=
  { embed := fun _ _ => .ok [1, 0], insertOk := true, deleteOk := true }

/-- The same environment with a silently failing datastore delete. -/
def indexEnvC9bad : IndexEnv :=
  { embed := fun _ _ => .ok [1, 0], insertOk := true, deleteOk := false }

def productC9 : Product :=
  { id := "p9", name := "Botella", description := some "Botella de acero"
    price := .fin 35, image_url := none, specs := some [("capacidad", "1L")]
    category := "Home & Kitchen", rating := some (9 / 2), created_at := "2025" }

def chunkC9 : String :=
  "Nombre: Botella Categoría: Home & Kitchen Descripción: Botella de acero " ++
  "Especificaciones: - capacidad: 1L"

def rowC9 : DocInsert :=
  { product_id := "p9", content := chunkC9, meta_name := "Botella"
    meta_category := "Home & Kitchen", embedding := [1, 0] }

/-- A chunk row left over from an earlier generation of the same product. -/
def staleRowC9 : DocInsert :=
  { product_id := "p9", content := "Nombre: Botella vieja", meta_name := "Botella vieja"
    meta_category := "Home & Kitchen", embedding := [7] }

/-- Claim C9 counterexample: the supabase delete reports failure only
through a result object that `indexProduct` discards, so a failed delete
is silent — the previous generation survives, the new rows are inserted
on top, and the call still returns a successful insert count.  After
this successful run the store holds rows of two generations (the stale
row's content differs from the fresh generation's) for the product id. -/
theorem indexProduct_silent_delete_cex :
    indexProduct indexEnvC9bad [staleRowC9] productC9 = .ok (1, [staleRowC9, rowC9]) ∧
    (List.filter (fun r => decide (r.product_id = productC9.id))
        [staleRowC9, rowC9]).length = 2 ∧
    staleRowC9.content ≠ rowC9.content := by
  exact ⟨rfl, rfl, by decide⟩

/-- Claim C9 (amended): two successful runs of `indexProduct` over the
same product content insert the same number of chunks unconditionally;
and whenever the datastore delete takes effect, each run leaves exactly
one generation of chunks for the product id — the fresh one — with the
previous generation fully deleted and other products' rows untouched.
(When the delete fails silently, the counterexample shows a stale
generation surviving a successful run.) -/
theorem indexProduct_idempotent_single_generation (env : IndexEnv) (store : DocStore)
    (p : Product) (n₁ n₂ : Nat) (s₁ s₂ : DocStore)
    (h₁ : indexProduct env store p = .ok (n₁, s₁))
    (h₂ : indexProduct env s₁ p = .ok (n₂, s₂)) :
    n₁ = n₂ ∧
    (env.deleteOk = true →
      ∃ gen : List DocInsert,
        (∀ r ∈ gen, r.product_id = p.id) ∧
        gen.length = n₁ ∧
        s₁.filter (fun r => decide (r.product_id = p.id)) = gen ∧
        s₂.filter (fun r => decide (r.product_id = p.id)) = gen ∧
        s₁.filter (fun r => decide (r.product_id ≠ p.id)) =
          store.filter (fun r => decide (r.product_id ≠ p.id))) := by
  unfold indexProduct at h₁ h₂
  constructor
  · by_cases hc : chunkText (productToIndexText p) = []
    · rw [if_pos hc] at h₁ h₂
      cases h₁
      cases h₂
      rfl
    · rw [if_neg hc] at h₁ h₂
      cases her : embedRows env p (chunkText (productToIndexText p)) with
      | error e => rw [her] at h₁; cases h₁
      | ok rows =>
        rw [her] at h₁ h₂
        cases hio : env.insertOk with
        | false => rw [hio] at h₁; cases h₁
        | true =>
          rw [hio] at h₁ h₂
          simp only [if_true] at h₁ h₂
          cases h₁
          cases h₂
          rfl
  · intro hd
    rw [hd] at h₁ h₂
    simp only [if_true] at h₁ h₂
    by_cases hc : chunkText (productToIndexText p) = []
    · rw [if_pos hc] at h₁ h₂
      cases h₁
      cases h₂
      refine ⟨[], by simp, rfl, ?_, ?_, ?_⟩
      · exact filter_ne_then_eq store p.id
      · rw [filter_ne_idem]
        exact filter_ne_then_eq store p.id
      · exact filter_ne_idem store p.id
    · rw [if_neg hc] at h₁ h₂
      cases her : embedRows env p (chunkText (productToIndexText p)) with
      | error e => rw [her] at h₁; cases h₁
      | ok rows =>
        rw [her] at h₁ h₂
        cases hio : env.insertOk with
        | false => rw [hio] at h₁; cases h₁
        | true =>
          rw [hio] at h₁ h₂
          simp only [if_true] at h₁ h₂
          cases h₁
          cases h₂
          have hpid : ∀ r ∈ rows, r.product_id = p.id := embedRows_pid env p _ rows her
          have hrows_eq : rows.filter (fun r => decide (r.product_id = p.id)) = rows :=
            List.filter_eq_self.mpr (fun r hr => by simp [hpid r hr])
          have hrows_ne : rows.filter (fun r => decide (r.product_id ≠ p.id)) = [] :=
            List.filter_eq_nil_iff.mpr (fun r hr => by simp [hpid r hr])
          refine ⟨rows, hpid, rfl, ?_, ?_, ?_⟩
          · simp [List.filter_append, filter_ne_then_eq, hrows_eq]
          · simp [List.filter_append, filter_ne_idem, filter_ne_then_eq, hrows_ne, hrows_eq]
          · simp [List.filter_append, filter_ne_idem, hrows_ne]
            exact hpid

theorem indexProduct_idempotent_witness :
    1 = 1 ∧
    ∃ gen : List DocInsert,
      (∀ r ∈ gen, r.product_id = productC9.id) ∧
      gen.length = 1 ∧
      List.filter (fun r => decide (r.product_id = productC9.id)) [rowC9] = gen ∧
      List.filter (fun r => decide (r.product_id = productC9.id)) [rowC9] = gen ∧
      List.filter (fun r => decide (r.product_id ≠ productC9.id)) [rowC9] =
        List.filter (fun r => decide (r.product_id ≠ productC9.id)) ([] : DocStore) :=
  ⟨(indexProduct_idempotent_single_generation indexEnvC9 [] productC9 1 1 [rowC9] [rowC9]
      (by rfl) (by rfl)).1,
   (indexProduct_idempotent_single_generation indexEnvC9 [] productC9 1 1 [rowC9] [rowC9]
      (by rfl) (by rfl)).2 rfl⟩

/-! ## Claim C7: `pickBestProduct` returns the first maximal-score
product -/

lemma scoreLE_trans (q : String) : ∀ a b c : Product,
    scoreLE q a b → scoreLE q b c → scoreLE q a c := by
  intro a b c hab hbc
  simp only [scoreLE, decide_eq_true_eq] at *
  exact le_trans hbc hab

lemma scoreLE_total (q : String) : ∀ a b : Product, scoreLE q a b || scoreLE q b a := by
  intro a b
  simp only [scoreLE, Bool.or_eq_true, decide_eq_true_eq]
  exact le_total (scoreProduct b q) (scoreProduct a q)

/-- The element a stable descending sort puts first: the earliest
occurrence of the maximal score. -/
def firstMaxBy (q : String) : List Product → Option Product
  | [] => none
  | a :: l =>
    match firstMaxBy q l with
    | none => some a
    | some b => some (if scoreProduct a q < scoreProduct b q then b else a)

lemma mergeSort_head_firstMax (q : String) : ∀ (l : List Product) (a : Product),
    (List.mergeSort (a :: l) (scoreLE q)).head? = firstMaxBy q (a :: l) := by
  intro l
  induction l with
  | nil =>
    intro a
    simp [List.mergeSort, firstMaxBy]
  | cons b l' ih =>
    intro a
    obtain ⟨l₁, l₂, h1, h2, h3⟩ :=
      List.mergeSort_cons (scoreLE_trans q) (scoreLE_total q) a (b :: l')
    cases l₁ with
    | nil =>
      rw [List.nil_append] at h1 h2
      rw [h1, List.head?_cons]
      cases hl₂ : l₂ with
      | nil =>
        have hlen : l₂.length = l'.length + 1 := by
          rw [← h2]
          simp
        rw [hl₂] at hlen
        simp at hlen
      | cons m rest =>
        have hm : firstMaxBy q (b :: l') = some m := by
          rw [← ih b, h2, hl₂, List.head?_cons]
        have hsorted := List.sorted_mergeSort (scoreLE_trans q) (scoreLE_total q)
          (a :: b :: l')
        rw [h1, hl₂] at hsorted
        have ham : scoreLE q a m := (List.pairwise_cons.mp hsorted).1 m (by simp)
        have hle : scoreProduct m q ≤ scoreProduct a q := by
          simpa [scoreLE, decide_eq_true_eq] using ham
        show some a = firstMaxBy q (a :: b :: l')
        unfold firstMaxBy
        rw [hm]
        dsimp only
        rw [if_neg (not_lt.mpr hle)]
    | cons c l₁' =>
      rw [h1]
      simp only [List.cons_append, List.head?_cons]
      have hm : firstMaxBy q (b :: l') = some c := by
        rw [← ih b, h2]
        simp
      have hca : scoreLE q a c = false := by
        have := h3 c (by simp)
        simpa using this
      have hlt : scoreProduct a q < scoreProduct c q := by
        have : ¬ (scoreProduct c q ≤ scoreProduct a q) := by
          simpa [scoreLE, decide_eq_true_eq] using hca
        exact not_le.mp this
      show some c = firstMaxBy q (a :: b :: l')
      unfold firstMaxBy
      rw [hm]
      dsimp only
      rw [if_pos hlt]

lemma firstMaxBy_spec (q : String) : ∀ (l : List Product), l ≠ [] →
    ∃ p l₁ l₂, firstMaxBy q l = some p ∧ l = l₁ ++ p :: l₂ ∧
      (∀ x ∈ l, scoreProduct x q ≤ scoreProduct p q) ∧
      (∀ x ∈ l₁, scoreProduct x q < scoreProduct p q) := by
  intro l
  induction l with
  | nil => intro h; exact absurd rfl h
  | cons a l ih =>
    intro _
    cases l with
    | nil =>
      refine ⟨a, [], [], rfl, rfl, ?_, by simp⟩
      intro x hx
      rw [List.mem_singleton.mp hx]
    | cons b l' =>
      obtain ⟨m, m₁, m₂, hm, hdec, hmax, hstrict⟩ := ih (by simp)
      by_cases hlt : scoreProduct a q < scoreProduct m q
      · refine ⟨m, a :: m₁, m₂, ?_, by rw [List.cons_append, hdec], ?_, ?_⟩
        · unfold firstMaxBy
          rw [hm]
          dsimp only
          rw [if_pos hlt]
        · intro x hx
          rcases List.mem_cons.mp hx with h | h
          · rw [h]; exact le_of_lt hlt
          · exact hmax x h
        · intro x hx
          rcases List.mem_cons.mp hx with h | h
          · rw [h]; exact hlt
          · exact hstrict x h
      · refine ⟨a, [], b :: l', ?_, rfl, ?_, by simp⟩
        · unfold firstMaxBy
          rw [hm]
          dsimp only
          rw [if_neg hlt]
        · intro x hx
          rcases List.mem_cons.mp hx with h | h
          · rw [h]
          · exact le_trans (hmax x h) (not_lt.mp hlt)

/-- Claim C7: `pickBestProduct` returns `null` on an empty list, and on a
nonempty list returns exactly one product of maximal lexical score, the
one occurring earliest in the original order — every strictly earlier
candidate has a strictly smaller score. -/
theorem pickBestProduct_first_max (l : List Product) (q : String) :
    pickBestProduct [] q = none ∧
    (l ≠ [] → ∃ p l₁ l₂, pickBestProduct l q = some p ∧ l = l₁ ++ p :: l₂ ∧
      (∀ x ∈ l, scoreProduct x q ≤ scoreProduct p q) ∧
      (∀ x ∈ l₁, scoreProduct x q < scoreProduct p q)) := by
  constructor
  · simp [pickBestProduct, List.mergeSort]
  · intro h
    obtain ⟨p, l₁, l₂, hfm, hdec, hmax, hstrict⟩ := firstMaxBy_spec q l h
    obtain ⟨a, l', rfl⟩ := List.exists_cons_of_ne_nil h
    exact ⟨p, l₁, l₂, by rw [pickBestProduct, mergeSort_head_firstMax, hfm], hdec, hmax, hstrict⟩

def productC7a : Product :=
  { id := "c7a", name := "Audífonos Bluetooth", description := some "Over-ear"
    price := .fin 300, image_url := none, specs := none, category := "Electronics"
    rating := some 4, created_at := "2025" }

def productC7b : Product :=
  { id := "c7b", name := "Auriculares Bluetooth", description := some "In-ear"
    price := .fin 100, image_url := none, specs := none, category := "Electronics"
    rating := some 4, created_at := "2024" }

theorem pickBestProduct_first_max_witness :
    [productC7a, productC7b] ≠ ([] : List Product) ∧
    (∃ p l₁ l₂, pickBestProduct [productC7a, productC7b] "bluetooth" = some p ∧
      [productC7a, productC7b] = l₁ ++ p :: l₂ ∧
      (∀ x ∈ [productC7a, productC7b],
        scoreProduct x "bluetooth" ≤ scoreProduct p "bluetooth") ∧
      (∀ x ∈ l₁, scoreProduct x "bluetooth" < scoreProduct p "bluetooth")) :=
  ⟨by simp,
   (pickBestProduct_first_max [productC7a, productC7b] "bluetooth").2 (by simp)⟩

/-! ## Claim C10: every turn with a nonempty query appends exactly one
assistant message -/

/-- Claim C10: for every environment behavior — success, clarification,
suggestion, retrieval failure, and completion failure on both the
primary and the fallback prompt — a turn over a nonempty trimmed query
appends exactly one assistant message to the conversation log. -/
theorem orchestrator_one_assistant_message (env : OrchEnv) (q : String) (cp : Option Product)
    (hq : jsTrim q ≠ "") :
    countAssistant (handleVoiceOrTextQuery env q cp).log = 1 := by
  unfold handleVoiceOrTextQuery handleResolvedProduct
  rw [if_neg hq]
  dsimp only
  cases hs : env.search (jsTrim q) with
  | error e => simp [countAssistant]
  | ok found =>
    dsimp only
    cases hf : found.isEmpty with
    | true =>
      simp only [if_true]
      cases cp with
      | none =>
        dsimp only
        cases ht : env.gemini (tipPrompt (jsTrim q)) with
        | ok tip => simp [countAssistant]
        | error e => simp [countAssistant]
      | some prod =>
        dsimp only
        cases hr : env.rag prod.id (jsTrim q) with
        | ok cs =>
          dsimp only
          cases hg : env.gemini (buildPrompt prod ((normalizeChunks cs).filter homeSimFilter)
              (jsTrim q)) with
          | ok t => simp [countAssistant]
          | error e =>
            dsimp only
            cases hg2 : env.gemini (fallbackPrompt (jsTrim q) prod.name) with
            | ok t => simp [countAssistant]
            | error e2 => simp [countAssistant]
        | error e =>
          dsimp only
          cases hg2 : env.gemini (fallbackPrompt (jsTrim q) prod.name) with
          | ok t => simp [countAssistant]
          | error e2 => simp [countAssistant]
    | false =>
      simp only [Bool.false_eq_true, if_false]
      cases hpb : pickBestProduct found (jsTrim q) with
      | none => simp [countAssistant]
      | some prod =>
        dsimp only
        cases hr : env.rag prod.id (jsTrim q) with
        | ok cs =>
          dsimp only
          cases hg : env.gemini (buildPrompt prod ((normalizeChunks cs).filter homeSimFilter)
              (jsTrim q)) with
          | ok t => simp [countAssistant]
          | error e =>
            dsimp only
            cases hg2 : env.gemini (fallbackPrompt (jsTrim q) prod.name) with
            | ok t => simp [countAssistant]
            | error e2 => simp [countAssistant]
        | error e =>
          dsimp only
          cases hg2 : env.gemini (fallbackPrompt (jsTrim q) prod.name) with
          | ok t => simp [countAssistant]
          | error e2 => simp [countAssistant]

def orchEnvC10 : OrchEnv :=
  { search := fun _ => .error "datastore unavailable"
    rag := fun _ _ => .error "unused"
    gemini := fun _ => .error "unused" }

theorem orchestrator_one_assistant_message_witness :
    countAssistant (handleVoiceOrTextQuery orchEnvC10 "teclado gamer" none).log = 1 :=
  orchestrator_one_assistant_message orchEnvC10 "teclado gamer" none (by decide)

/-! ## Claim C4: what triggers the name-only fallback prompt -/

lemma handle_resolved_path (env : OrchEnv) (q : String) (cp : Option Product)
    (found : List Product) (p : Product)
    (hq : jsTrim q ≠ "")
    (hs : env.search (jsTrim q) = .ok found)
    (hne : found.isEmpty = false)
    (hp : pickBestProduct found (jsTrim q) = some p) :
    handleVoiceOrTextQuery env q cp = handleResolvedProduct env (jsTrim q) p := by
  unfold handleVoiceOrTextQuery
  rw [if_neg hq, hs]
  dsimp only
  rw [hne]
  simp only [Bool.false_eq_true, if_false]
  rw [hp]

def productC4 : Product :=
  { id := "c4", name := "Teclado Pro", description := some "Teclado mecánico"
    price := .fin 159, image_url := none, specs := none, category := "Electronics"
    rating := some 4, created_at := "2025" }

def orchEnvC4c : OrchEnv :=
  { search := fun _ => .ok [productC4]
    rag := fun _ _ => .ok []
    gemini := fun _ => .ok "" }

/-- Claim C4 counterexample: the completion service returns empty text
(without throwing) for the primary prompt, yet only one completion call
is made — no second, simpler prompt is sent — and the turn returns the
fixed no-answer string rather than retrying with the product name. -/
theorem primary_empty_no_second_call_cex :
    (handleVoiceOrTextQuery orchEnvC4c "hola" none).geminiPrompts.length = 1 ∧
    (handleVoiceOrTextQuery orchEnvC4c "hola" none).reply =
      "Ahora mismo no pude obtener respuesta." := by
  have hkey := handle_resolved_path orchEnvC4c "hola" none [productC4] productC4
    (by decide) rfl rfl (by simp [pickBestProduct, List.mergeSort])
  rw [hkey]
  exact ⟨rfl, rfl⟩

/-- Claim C4 (amended): in the resolved-product path, when the primary
completion call throws, the name-only fallback prompt is sent to the
completion service exactly once more: a nonempty fallback reply is
returned as-is, an empty one becomes the fixed retry-error string, and a
fallback throw escapes to the outer catch's fixed apology; when the
primary completion call returns empty text without throwing, the fixed
no-answer string is returned with no second completion call.  In every
case the reply is either completion-service text or a fixed string —
never the raw error. -/
theorem orchestrator_fallback_policy (env : OrchEnv) (q : String) (cp : Option Product)
    (found : List Product) (p : Product)
    (hq : jsTrim q ≠ "")
    (hs : env.search (jsTrim q) = .ok found)
    (hne : found.isEmpty = false)
    (hp : pickBestProduct found (jsTrim q) = some p) :
    ∀ cs, env.rag p.id (jsTrim q) = .ok cs →
      (env.gemini (buildPrompt p ((normalizeChunks cs).filter homeSimFilter) (jsTrim q)) =
          .ok "" →
        handleVoiceOrTextQuery env q cp =
          { reply := "Ahora mismo no pude obtener respuesta.",
            log := [{ role := .user, content := jsTrim q },
                    { role := .assistant,
                      content := "Ahora mismo no pude obtener respuesta." }],
            geminiPrompts :=
              [buildPrompt p ((normalizeChunks cs).filter homeSimFilter) (jsTrim q)] }) ∧
      (∀ e, env.gemini (buildPrompt p ((normalizeChunks cs).filter homeSimFilter) (jsTrim q)) =
          .error e →
        (handleVoiceOrTextQuery env q cp).geminiPrompts =
            [buildPrompt p ((normalizeChunks cs).filter homeSimFilter) (jsTrim q),
             fallbackPrompt (jsTrim q) p.name] ∧
        (∀ t, env.gemini (fallbackPrompt (jsTrim q) p.name) = .ok t → t ≠ "" →
          (handleVoiceOrTextQuery env q cp).reply = t) ∧
        (env.gemini (fallbackPrompt (jsTrim q) p.name) = .ok "" →
          (handleVoiceOrTextQuery env q cp).reply =
            "Hubo un error al buscar información detallada. Intenta nuevamente.") ∧
        (∀ e2, env.gemini (fallbackPrompt (jsTrim q) p.name) = .error e2 →
          (handleVoiceOrTextQuery env q cp).reply =
            "Ocurrió un problema grave. Intenta nuevamente.")) := by
  have hkey := handle_resolved_path env q cp found p hq hs hne hp
  intro cs hr
  constructor
  · intro hg
    rw [hkey]
    unfold handleResolvedProduct
    rw [hr]
    dsimp only
    rw [hg]
    dsimp only
    rw [if_neg (by simp)]
  · intro e hg
    refine ⟨?_, ?_, ?_, ?_⟩
    · rw [hkey]
      unfold handleResolvedProduct
      rw [hr]
      dsimp only
      rw [hg]
      dsimp only
      cases hg2 : env.gemini (fallbackPrompt (jsTrim q) p.name) <;> rfl
    · intro t hg2 ht
      rw [hkey]
      unfold handleResolvedProduct
      rw [hr]
      dsimp only
      rw [hg]
      dsimp only
      rw [hg2]
      dsimp only
      rw [if_pos ht]
    · intro hg2
      rw [hkey]
      unfold handleResolvedProduct
      rw [hr]
      dsimp only
      rw [hg]
      dsimp only
      rw [hg2]
      dsimp only
      rw [if_neg (by simp)]
    · intro e2 hg2
      rw [hkey]
      unfold handleResolvedProduct
      rw [hr]
      dsimp only
      rw [hg]
      dsimp only
      rw [hg2]

def orchEnvC4w : OrchEnv :=
  { search := fun _ => .ok [productC4]
    rag := fun _ _ => .ok []
    gemini := fun s =>
      if s = fallbackPrompt "hola" productC4.name then .ok "Claro" else .error "500" }

theorem orchestrator_fallback_policy_witness :
    (handleVoiceOrTextQuery orchEnvC4w "hola" none).geminiPrompts =
      [buildPrompt productC4 ((normalizeChunks []).filter homeSimFilter) (jsTrim "hola"),
       fallbackPrompt (jsTrim "hola") productC4.name] ∧
    (handleVoiceOrTextQuery orchEnvC4w "hola" none).reply = "Claro" := by
  have h := (orchestrator_fallback_policy orchEnvC4w "hola" none [productC4] productC4
      (by decide) rfl rfl (by simp [pickBestProduct, List.mergeSort]) [] rfl).2 "500" (by rfl)
  exact ⟨h.1, h.2.1 "Claro" (by rfl) (by decide)⟩

end MACetplace
